import Mathlib

/-!
Verification of the two trading strategy scripts in this repository against
their specification. The scripts are shallowly embedded: prices, momentum
scores and portfolio fractions become rationals, the host platform's calls
(order placement, scheduling, history) become explicit data, and each
callback becomes a pure function from its inputs to the orders it issues and
the state it leaves behind.
-/

/-- Data resolutions the host platform offers for subscriptions and history. -/
inductive Resolution where
  | Daily
  | Hour
  | Minute
deriving DecidableEq

/-- Date rules of the host scheduler that the scripts mention: an every-trading-day
rule and a month-start rule, each anchored to a symbol's trading calendar. -/
inductive DateRule where
  | everyDay (symbol : String)
  | monthStart (symbol : String)
deriving DecidableEq

/-- Time rules of the host scheduler: fire a number of minutes after market open. -/
inductive TimeRule where
  | afterMarketOpen (symbol : String) (minutesAfterOpen : ℚ)
deriving DecidableEq

/-- One Schedule.On registration: a date rule, a time rule and the name of the
callback the host will invoke. -/
structure ScheduledEvent where
  dateRule : DateRule
  timeRule : TimeRule
  callback : String
deriving DecidableEq

/-- The portfolio-changing calls a strategy issues to the host, in issue order. -/
inductive Order where
  | setHoldings (symbol : String) (fraction : ℚ)
  | liquidate (symbol : String)
deriving DecidableEq

namespace DualThrust

/-- One daily bar of the history window returned by self.History. -/
structure Bar where
  high : ℚ
  low : ℚ
  close : ℚ
deriving DecidableEq

/-- The mutable strategy state of _DualThrust.py: the two trigger prices and the
session open, each None until SetSignal has fired. -/
structure AlgoState where
  selltrig : Option ℚ
  buytrig : Option ℚ
  currentopen : Option ℚ
deriving DecidableEq

/-- The single traded security, self.syl. -/
def syl : String := "NFLX"

/-- Initialize leaves selltrig, buytrig and currentopen as None. -/
def Initialize : AlgoState :=
  { selltrig := none, buytrig := none, currentopen := none }

/-- The Schedule.On registrations Initialize makes: SetSignal every trading day,
zero minutes after market open. -/
def initializeSchedules : List ScheduledEvent :=
  [⟨DateRule.everyDay syl, TimeRule.afterMarketOpen syl 0, "SetSignal"⟩]

/-- k1 of SetSignal. -/
def k1 : ℚ := 0.5

/-- k2 of SetSignal. -/
def k2 : ℚ := 0.5

/-- max(self.high) over the 4-day daily history window. -/
def HH (hist : Fin 4 → Bar) : ℚ :=
  max (max (max (hist 0).high (hist 1).high) (hist 2).high) (hist 3).high

/-- max(self.close) over the 4-day daily history window. -/
def HC (hist : Fin 4 → Bar) : ℚ :=
  max (max (max (hist 0).close (hist 1).close) (hist 2).close) (hist 3).close

/-- min(self.close) over the 4-day daily history window. -/
def LC (hist : Fin 4 → Bar) : ℚ :=
  min (min (min (hist 0).close (hist 1).close) (hist 2).close) (hist 3).close

/-- min(self.low) over the 4-day daily history window. -/
def LL (hist : Fin 4 → Bar) : ℚ :=
  min (min (min (hist 0).low (hist 1).low) (hist 2).low) (hist 3).low

/-- signalrange of SetSignal: HH - LC when HH - LC >= HC - LL, else HC - LL. -/
def signalrange (hist : Fin 4 → Bar) : ℚ :=
  if HH hist - LC hist ≥ HC hist - LL hist then HH hist - LC hist
  else HC hist - LL hist

/-- SetSignal: fetch the 4-day daily history, read the current price as the session
open, and set both triggers around it. -/
def SetSignal (hist : Fin 4 → Bar) (price : ℚ) : AlgoState :=
  { selltrig := some (price - k1 * signalrange hist)
    buytrig := some (price + k2 * signalrange hist)
    currentopen := some price }

/-- Python str of an optional number: None prints as "None". -/
def pyStr : Option ℚ → String
  | none => "None"
  | some q => toString q

/-- The TypeError Python raises when OnData compares the price against a
selltrig that is still None. -/
def typeErrorMsg : String :=
  "TypeError: unorderable comparison between float and NoneType"

/-- The log line OnData emits after trading. -/
def logLine (s : AlgoState) : String :=
  "open: " ++ pyStr s.currentopen ++ " buy: " ++ pyStr s.buytrig ++
    " sell: " ++ pyStr s.selltrig

/-- OnData: compare the current price against selltrig and rebalance to 80% long
or 80% short, liquidating first on a side change; then log. The comparison
raises when selltrig is still None. Returns the orders issued and the log line. -/
def OnData (s : AlgoState) (price holdings : ℚ) :
    Except String (List Order × String) :=
  match s.selltrig with
  | none => Except.error typeErrorMsg
  | some selltrig =>
    let orders :=
      if price ≥ selltrig then
        if holdings ≥ 0 then [Order.setHoldings syl 0.8]
        else [Order.liquidate syl, Order.setHoldings syl 0.8]
      else if price < selltrig then
        if holdings ≥ 0 then [Order.liquidate syl, Order.setHoldings syl (-0.8)]
        else [Order.setHoldings syl (-0.8)]
      else []
    Except.ok (orders, logLine s)

/-- The orders a completed OnData run placed (none when it raised). -/
def ordersOf : Except String (List Order × String) → List Order
  | Except.error _ => []
  | Except.ok (os, _) => os

/-- An OnData outcome with only its orders: either the error it raised or the
orders it placed, the log line dropped. -/
def orderOutcome (r : Except String (List Order × String)) :
    Except String (List Order) :=
  r.map Prod.fst

end DualThrust

namespace Momentum

/-- The hard-coded symbol universe of _Mom_Based_Rotation.py, in source order. -/
def symbols : List String :=
  ["AMZN", "NFLX", "NVDA", "MSFT", "BA", "CSCO", "AAPL", "V", "HD", "UNH",
   "BAC", "JPM", "GOOGL", "INTC", "PFE", "WMT", "BRKb", "VZ", "DIS", "WFC",
   "JNJ", "XOM", "CVX", "C", "CMCSA", "FB", "ORCL", "T", "BABA", "TSLA", "IVV"]

/-- The momentum period, 6*21 daily bars. -/
def period : ℕ := 6 * 21

/-- The MOM indicator registrations Initialize makes: one per symbol of the
universe, with the period and daily resolution. -/
def momRegistrations : List (String × ℕ × Resolution) :=
  symbols.map (fun s => (s, period, Resolution.Daily))

/-- The warm-up length Initialize sets, SetWarmUp(period). -/
def warmUpPeriod : ℕ := period

/-- The Schedule.On registrations Initialize makes: Rebalance on the every-day
date rule for IVV, after market open. -/
def initializeSchedules : List ScheduledEvent :=
  [⟨DateRule.everyDay "IVV", TimeRule.afterMarketOpen "IVV" 0, "Rebalance"⟩]

/-- self.data as a keyed sequence: each symbol with its momentum score. -/
abbrev MomData := List (String × ℚ)

/-- self.Portfolio as a keyed sequence: each security with its held fraction of
portfolio value (0 = not invested). -/
abbrev Portfolio := List (String × ℚ)

/-- The descending-score order pd.Series.sort_values(ascending=False) uses. -/
def byScoreDesc (a b : String × ℚ) : Prop := b.2 ≤ a.2

instance : DecidableRel byScoreDesc :=
  fun a b => inferInstanceAs (Decidable (b.2 ≤ a.2))

instance : IsTotal (String × ℚ) byScoreDesc := ⟨fun a b => le_total b.2 a.2⟩

instance : IsTrans (String × ℚ) byScoreDesc :=
  ⟨fun _ _ _ h1 h2 => le_trans h2 h1⟩

/-- pd.Series(self.data).sort_values(ascending=False): the scores sorted in
descending order. -/
def sortDesc (data : MomData) : MomData := List.insertionSort byScoreDesc data

/-- top.index of Rebalance: the symbols of the nine highest momentum scores. -/
def top9 (data : MomData) : List String := ((sortDesc data).take 9).map Prod.fst

/-- self.Portfolio[sym] as a held fraction: the entry under the key, 0 when the
key is absent. -/
def lookup : Portfolio → String → ℚ
  | [], _ => 0
  | p :: ps, sym => if p.1 == sym then p.2 else lookup ps sym

/-- SetHoldings(sym, w) on the keyed portfolio: set the security's held
fraction, adding the key when it is absent. -/
def setWeight : Portfolio → String → ℚ → Portfolio
  | [], sym, w => [(sym, w)]
  | p :: ps, sym, w =>
    if p.1 == sym then (p.1, w) :: ps else p :: setWeight ps sym w

/-- The Liquidate calls of Rebalance's first loop: every invested security whose
symbol is not in the top momentum list. -/
def liquidationOrders (top : List String) (port : Portfolio) : List Order :=
  (port.filter fun p => decide (p.2 ≠ 0 ∧ p.1 ∉ top)).map
    fun p => Order.liquidate p.1

/-- The portfolio after Rebalance's first loop: each invested security whose
symbol is not in the top momentum list is liquidated to fraction 0. -/
def liquidationStep (top : List String) (port : Portfolio) : Portfolio :=
  port.map fun p => if p.2 ≠ 0 ∧ p.1 ∉ top then (p.1, 0) else p

/-- added_symbols of Rebalance: the top symbols not invested (checked after the
liquidation loop). -/
def addedSymbols (top : List String) (port1 : Portfolio) : List String :=
  top.filter fun sym => decide (lookup port1 sym = 0)

/-- Rebalance: return during warm-up; otherwise liquidate the invested securities
that fell out of the top nine, then SetHoldings each newly added top symbol to
1/len(added_symbols). Returns the orders issued and the resulting portfolio. -/
def Rebalance (isWarmingUp : Bool) (data : MomData) (port : Portfolio) :
    List Order × Portfolio :=
  if isWarmingUp then ([], port)
  else
    let top := top9 data
    let port1 := liquidationStep top port
    let added := addedSymbols top port1
    let w : ℚ := mkRat 1 added.length
    (liquidationOrders top port ++ added.map fun a => Order.setHoldings a w,
     added.foldl (fun pt a => setWeight pt a w) port1)

/-- OnData of the momentum script is `pass`: no orders, portfolio untouched. -/
def OnData (port : Portfolio) (_data : MomData) : List Order × Portfolio :=
  ([], port)

/-- A concrete momentum table over the universe, scores descending in list
order, so the top nine are the first nine symbols. -/
def cexData : MomData :=
  [("AMZN", 31), ("NFLX", 30), ("NVDA", 29), ("MSFT", 28), ("BA", 27),
   ("CSCO", 26), ("AAPL", 25), ("V", 24), ("HD", 23), ("UNH", 22),
   ("BAC", 21), ("JPM", 20), ("GOOGL", 19), ("INTC", 18), ("PFE", 17),
   ("WMT", 16), ("BRKb", 15), ("VZ", 14), ("DIS", 13), ("WFC", 12),
   ("JNJ", 11), ("XOM", 10), ("CVX", 9), ("C", 8), ("CMCSA", 7),
   ("FB", 6), ("ORCL", 5), ("T", 4), ("BABA", 3), ("TSLA", 2), ("IVV", 1)]

/-- A concrete prior portfolio: a previous top nine held at 1/9 each, of which
IVV has since dropped out of the top nine while HD has entered it. -/
def cexPort : Portfolio :=
  [("AMZN", mkRat 1 9), ("NFLX", mkRat 1 9), ("NVDA", mkRat 1 9),
   ("MSFT", mkRat 1 9), ("BA", mkRat 1 9), ("CSCO", mkRat 1 9),
   ("AAPL", mkRat 1 9), ("V", mkRat 1 9), ("HD", 0), ("UNH", 0),
   ("BAC", 0), ("JPM", 0), ("GOOGL", 0), ("INTC", 0), ("PFE", 0),
   ("WMT", 0), ("BRKb", 0), ("VZ", 0), ("DIS", 0), ("WFC", 0),
   ("JNJ", 0), ("XOM", 0), ("CVX", 0), ("C", 0), ("CMCSA", 0),
   ("FB", 0), ("ORCL", 0), ("T", 0), ("BABA", 0), ("TSLA", 0),
   ("IVV", mkRat 1 9)]

end Momentum

namespace DualThrust

/-- C1: SetSignal computes the signal range over the 4-day daily history window
as max(HH - LC, HC - LL) with HH the maximum high, HC the maximum close, LC the
minimum close and LL the minimum low of the window, and sets the two triggers to
current open minus k1 times the range (selltrig) and current open plus k2 times
the range (buytrig), with k1 = k2 = 0.5. -/
theorem setSignal_range_and_triggers (hist : Fin 4 → Bar) (price : ℚ) :
    signalrange hist = max (HH hist - LC hist) (HC hist - LL hist) ∧
    k1 = 1/2 ∧ k2 = 1/2 ∧
    (SetSignal hist price).selltrig = some (price - k1 * signalrange hist) ∧
    (SetSignal hist price).buytrig = some (price + k2 * signalrange hist) := by
  refine ⟨?_, by norm_num [k1], by norm_num [k2], rfl, rfl⟩
  unfold signalrange
  by_cases h : HH hist - LC hist ≥ HC hist - LL hist
  · rw [if_pos h, max_eq_left h]
  · rw [if_neg h, max_eq_right (le_of_not_le h)]

/-- C2: with the triggers set, OnData rebalances to 80% long when the current
price is at or above selltrig (liquidating first when currently short), and to
80% short when the price is strictly below selltrig (liquidating first when
currently long or flat). -/
theorem onData_trades_against_selltrig (s : AlgoState) (price holdings t : ℚ)
    (hs : s.selltrig = some t) :
    ordersOf (OnData s price holdings) =
      if price ≥ t then
        if holdings < 0 then [Order.liquidate syl, Order.setHoldings syl 0.8]
        else [Order.setHoldings syl 0.8]
      else
        if holdings < 0 then [Order.setHoldings syl (-0.8)]
        else [Order.liquidate syl, Order.setHoldings syl (-0.8)] := by
  obtain ⟨st, b, o⟩ := s
  have hst : st = some t := hs
  subst hst
  simp only [OnData, ordersOf]
  split_ifs <;> first | rfl | (exfalso; linarith)

/-- Witness for C2 at a concrete input: price 12 at or above selltrig 10 with
flat holdings rebalances to 80% long. -/
theorem onData_trades_against_selltrig_witness :
    ordersOf (OnData ⟨some 10, some 20, some 15⟩ 12 0) =
      [Order.setHoldings syl 0.8] := by
  rw [onData_trades_against_selltrig ⟨some 10, some 20, some 15⟩ 12 0 10 rfl]
  norm_num

/-- C8: straight after Initialize, selltrig is still None and OnData's price
comparison raises a TypeError, so OnData is well-defined only once SetSignal has
fired and set selltrig. -/
theorem onData_requires_setSignal (price holdings : ℚ) :
    OnData Initialize price holdings = Except.error typeErrorMsg ∧
    ∀ (s : AlgoState) (t : ℚ), s.selltrig = some t →
      ∃ out, OnData s price holdings = Except.ok out := by
  refine ⟨rfl, ?_⟩
  rintro ⟨st, b, o⟩ t hs
  cases st with
  | none => exact Option.noConfusion hs
  | some u => exact ⟨_, rfl⟩

/-- C10: the orders OnData places depend only on the current price, the current
holdings and selltrig; two states with the same selltrig, whatever their buytrig
and currentopen, produce the same order outcome. -/
theorem onData_independent_of_buytrig (s1 s2 : AlgoState) (price holdings : ℚ)
    (hsell : s1.selltrig = s2.selltrig) :
    orderOutcome (OnData s1 price holdings) =
      orderOutcome (OnData s2 price holdings) := by
  obtain ⟨t1, b1, o1⟩ := s1
  obtain ⟨t2, b2, o2⟩ := s2
  have h : t1 = t2 := hsell
  subst h
  cases t1 with
  | none => rfl
  | some t => rfl

/-- Witness for C10 at a concrete input: two states sharing selltrig 10 but with
buytrig 20 against 999 place the same orders. -/
theorem onData_independent_of_buytrig_witness :
    orderOutcome (OnData ⟨some 10, some 20, some 15⟩ 12 0) =
      orderOutcome (OnData ⟨some 10, some 999, some 15⟩ 12 0) :=
  onData_independent_of_buytrig ⟨some 10, some 20, some 15⟩
    ⟨some 10, some 999, some 15⟩ 12 0 rfl

end DualThrust

namespace Momentum

/-- C9: a Rebalance invocation during warm-up returns at once, issuing no
Liquidate or SetHoldings call and leaving the portfolio unchanged. -/
theorem rebalance_noop_during_warmup (data : MomData) (port : Portfolio) :
    Rebalance true data port = ([], port) := rfl

/-- C3: the code registers Rebalance under the every-trading-day date rule for
IVV, not under a month-start rule, so it fires every trading day; the source's
own comment says it was meant to fire at month start. -/
theorem rebalance_scheduled_every_day :
    initializeSchedules.map ScheduledEvent.dateRule = [DateRule.everyDay "IVV"] ∧
    ∀ sym : String, DateRule.everyDay "IVV" ≠ DateRule.monthStart sym :=
  ⟨rfl, fun _ h => DateRule.noConfusion h⟩

/-- C5: the universe is the hard-coded list of 31 symbols; Initialize registers
a MOM indicator of period 6*21 = 126 at daily resolution for every one of them,
and Rebalance ranks by sorting the scores in descending order. -/
theorem universe_and_momentum_ranking :
    symbols.length = 31 ∧
    period = 126 ∧
    momRegistrations = symbols.map (fun s => (s, 126, Resolution.Daily)) ∧
    ∀ data : MomData,
      (sortDesc data).Perm data ∧
      ((sortDesc data).map Prod.snd).Sorted (fun a b : ℚ => b ≤ a) ∧
      top9 data = ((sortDesc data).take 9).map Prod.fst := by
  refine ⟨rfl, rfl, rfl, fun data => ⟨List.perm_insertionSort _ _, ?_, rfl⟩⟩
  exact List.Pairwise.map _ (fun a b h => h)
    (List.sorted_insertionSort byScoreDesc data)

end Momentum

/-- C7: each script registers the three lifecycle callbacks: Initialize,
a scheduled signal computation registered through Schedule.On during Initialize
(SetSignal for Dual Thrust, Rebalance for the momentum rotation), and a per-bar
OnData handler (a no-op for the momentum rotation; fresh triggers from each
SetSignal for Dual Thrust). -/
theorem lifecycle_callbacks_registered :
    DualThrust.initializeSchedules =
      [⟨DateRule.everyDay DualThrust.syl,
        TimeRule.afterMarketOpen DualThrust.syl 0, "SetSignal"⟩] ∧
    Momentum.initializeSchedules =
      [⟨DateRule.everyDay "IVV", TimeRule.afterMarketOpen "IVV" 0, "Rebalance"⟩] ∧
    (∀ (port : Momentum.Portfolio) (data : Momentum.MomData),
      Momentum.OnData port data = ([], port)) ∧
    ∀ (hist : Fin 4 → DualThrust.Bar) (price : ℚ),
      (DualThrust.SetSignal hist price).selltrig ≠ none :=
  ⟨rfl, rfl, fun _ _ => rfl, fun _ _ h => Option.noConfusion h⟩

namespace Momentum

/-- lookup on the empty portfolio reads 0. -/
theorem lookup_nil (sym : String) : lookup [] sym = 0 := rfl

/-- lookup unfolded over a leading entry. -/
theorem lookup_cons (p : String × ℚ) (ps : Portfolio) (sym : String) :
    lookup (p :: ps) sym = if p.1 == sym then p.2 else lookup ps sym := rfl

/-- liquidationStep leaves the empty portfolio empty. -/
theorem liquidationStep_nil (top : List String) : liquidationStep top [] = [] :=
  rfl

/-- liquidationStep unfolded over a leading entry. -/
theorem liquidationStep_cons (top : List String) (p : String × ℚ)
    (ps : Portfolio) :
    liquidationStep top (p :: ps) =
      (if p.2 ≠ 0 ∧ p.1 ∉ top then (p.1, 0) else p) :: liquidationStep top ps :=
  rfl

/-- Reading the portfolio after the liquidation loop: an invested key outside
the top list reads 0, every other key reads its prior value. -/
theorem lookup_liquidationStep (top : List String) (port : Portfolio)
    (sym : String) :
    lookup (liquidationStep top port) sym =
      if lookup port sym ≠ 0 ∧ sym ∉ top then 0 else lookup port sym := by
  induction port with
  | nil => simp [liquidationStep_nil, lookup_nil]
  | cons p ps ih =>
    obtain ⟨key, val⟩ := p
    by_cases hkey : (key == sym) = true
    · have hk : key = sym := by simpa using hkey
      subst hk
      by_cases hc : val ≠ 0 ∧ key ∉ top
      · rw [liquidationStep_cons, if_pos hc, lookup_cons, lookup_cons]
        simp only [hkey, if_true]
        rw [if_pos]
        exact hc
      · rw [liquidationStep_cons, if_neg hc, lookup_cons, lookup_cons]
        simp only [hkey, if_true]
        rw [if_neg]
        exact hc
    · have hne : ¬ ((key, val).1 == sym) = true := hkey
      by_cases hc : val ≠ 0 ∧ key ∉ top
      · rw [liquidationStep_cons, if_pos hc, lookup_cons, lookup_cons]
        simp only [hkey, if_false, Bool.false_eq_true]
        exact ih
      · rw [liquidationStep_cons, if_neg hc, lookup_cons, lookup_cons]
        simp only [hkey, if_false, Bool.false_eq_true]
        exact ih

/-- Reading the portfolio after one SetHoldings call: the set key reads the new
fraction, every other key is untouched. -/
theorem lookup_setWeight (port : Portfolio) (a : String) (w : ℚ)
    (sym : String) :
    lookup (setWeight port a w) sym = if sym = a then w else lookup port sym := by
  induction port with
  | nil =>
    simp only [setWeight, lookup_cons, lookup_nil]
    by_cases h : sym = a
    · subst h
      simp
    · have hne : ¬ (a == sym) = true := by
        simp only [beq_iff_eq]
        exact fun he => h he.symm
      simp [hne, h]
  | cons p ps ih =>
    obtain ⟨key, val⟩ := p
    by_cases hkey : (key == a) = true
    · have hk : key = a := by simpa using hkey
      subst hk
      simp only [setWeight, hkey, if_true]
      by_cases h : sym = key
      · subst h
        simp [lookup_cons]
      · have hne : ¬ (key == sym) = true := by
          simp only [beq_iff_eq]
          exact fun he => h he.symm
        simp [lookup_cons, hne, h]
    · simp only [setWeight, hkey, Bool.false_eq_true, if_false]
      by_cases h : (key == sym) = true
      · have hk : key = sym := by simpa using h
        subst hk
        have hne : ¬ key = a := fun he => hkey (by simpa using he)
        simp [lookup_cons, h, hne]
      · simp [lookup_cons, h, ih]

/-- Reading the portfolio after the SetHoldings loop: every added key reads the
common new fraction, every other key is untouched. -/
theorem lookup_foldl_setWeight (added : List String) (w : ℚ) (port : Portfolio)
    (sym : String) :
    lookup (added.foldl (fun pt a => setWeight pt a w) port) sym =
      if sym ∈ added then w else lookup port sym := by
  induction added generalizing port with
  | nil => simp
  | cons a rest ih =>
    rw [List.foldl_cons, ih]
    by_cases hr : sym ∈ rest
    · simp [hr]
    · by_cases ha : sym = a
      · simp [hr, ha, lookup_setWeight]
      · simp [hr, ha, lookup_setWeight]

/-- Membership in added_symbols: the top symbols reading 0 after liquidation. -/
theorem mem_addedSymbols (top : List String) (port1 : Portfolio)
    (sym : String) :
    sym ∈ addedSymbols top port1 ↔ sym ∈ top ∧ lookup port1 sym = 0 := by
  simp [addedSymbols, List.mem_filter]

/-- The added symbols are the top symbols reading 0 already before the
liquidation loop, which never changes a top symbol's entry. -/
theorem addedSymbols_eq_filter (data : MomData) (port : Portfolio) :
    addedSymbols (top9 data) (liquidationStep (top9 data) port) =
      (top9 data).filter fun s => decide (lookup port s = 0) := by
  unfold addedSymbols
  refine List.filter_congr ?_
  intro s hs
  have h1 : lookup (liquidationStep (top9 data) port) s = lookup port s := by
    rw [lookup_liquidationStep, if_neg]
    rintro ⟨-, habs⟩
    exact habs hs
  rw [h1]

/-- The two components of an active (non-warm-up) Rebalance, unfolded. -/
theorem rebalance_active (data : MomData) (port : Portfolio) :
    Rebalance false data port =
      (liquidationOrders (top9 data) port ++
        (addedSymbols (top9 data) (liquidationStep (top9 data) port)).map
          (fun a => Order.setHoldings a
            (mkRat 1
              (addedSymbols (top9 data)
                (liquidationStep (top9 data) port)).length)),
       (addedSymbols (top9 data) (liquidationStep (top9 data) port)).foldl
         (fun pt a => setWeight pt a
           (mkRat 1
             (addedSymbols (top9 data)
               (liquidationStep (top9 data) port)).length))
         (liquidationStep (top9 data) port)) := rfl

/-- The exact rational 1/n that SetHoldings receives. -/
theorem mkRat_one_eq_one_div (n : ℕ) : mkRat 1 n = 1 / (n : ℚ) := by
  rw [Rat.mkRat_eq_divInt, Rat.divInt_eq_div]
  norm_num

/-- A Liquidate order of the first loop stands for an entry of the portfolio
that is invested and outside the top list. -/
theorem mem_liquidationOrders (top : List String) (port : Portfolio)
    (sym : String) :
    Order.liquidate sym ∈ liquidationOrders top port ↔
      ∃ p ∈ port, p.1 = sym ∧ p.2 ≠ 0 ∧ sym ∉ top := by
  unfold liquidationOrders
  constructor
  · intro h
    rcases List.mem_map.mp h with ⟨p, hp, heq⟩
    rcases List.mem_filter.mp hp with ⟨hmem, hpred⟩
    have hpred' : p.2 ≠ 0 ∧ p.1 ∉ top := of_decide_eq_true hpred
    have hkey : p.1 = sym := by
      cases heq
      rfl
    exact ⟨p, hmem, hkey, hpred'.1, hkey ▸ hpred'.2⟩
  · rintro ⟨p, hmem, hkey, hval, htop⟩
    refine List.mem_map.mpr ⟨p, List.mem_filter.mpr ⟨hmem, ?_⟩, by rw [hkey]⟩
    exact decide_eq_true ⟨hval, hkey ▸ htop⟩

/-- With no repeated keys, a portfolio entry's value is what lookup reads at
its key. -/
theorem lookup_eq_of_mem {port : Portfolio} {p : String × ℚ}
    (hnd : (port.map Prod.fst).Nodup) (hp : p ∈ port) :
    lookup port p.1 = p.2 := by
  induction port with
  | nil => cases hp
  | cons q qs ih =>
    rw [List.map_cons, List.nodup_cons] at hnd
    rcases List.mem_cons.mp hp with h | h
    · subst h
      simp [lookup_cons]
    · have hne : ¬ (q.1 == p.1) = true := by
        simp only [beq_iff_eq]
        intro he
        exact hnd.1 (he ▸ List.mem_map_of_mem Prod.fst h)
      rw [lookup_cons, if_neg hne]
      exact ih hnd.2 h

/-- A key lookup reads nonzero only through an entry of the portfolio. -/
theorem lookup_mem_of_ne_zero {port : Portfolio} {sym : String}
    (h : lookup port sym ≠ 0) : (sym, lookup port sym) ∈ port := by
  induction port with
  | nil => exact absurd rfl h
  | cons q qs ih =>
    by_cases hq : (q.1 == sym) = true
    · have hk : q.1 = sym := by simpa using hq
      rw [lookup_cons, if_pos hq]
      rw [lookup_cons, if_pos hq] at h
      exact hk ▸ List.mem_cons_self q qs
    · rw [lookup_cons, if_neg hq]
      rw [lookup_cons, if_neg hq] at h
      exact List.mem_cons_of_mem q (ih h)

end Momentum

namespace Momentum

/-- C6: during an active (non-warm-up) Rebalance, a Liquidate order is issued
for a symbol exactly when the portfolio holds it (nonzero fraction) and it is
not among the top-nine momentum symbols; in particular no top-nine security is
liquidated. -/
theorem rebalance_liquidation_policy (data : MomData) (port : Portfolio)
    (sym : String) (hnd : (port.map Prod.fst).Nodup) :
    Order.liquidate sym ∈ (Rebalance false data port).1 ↔
      lookup port sym ≠ 0 ∧ sym ∉ top9 data := by
  rw [rebalance_active]
  constructor
  · intro hmem
    rcases List.mem_append.mp hmem with h | h
    · rcases (mem_liquidationOrders _ _ _).mp h with ⟨p, hp, hkey, hval, htop⟩
      refine ⟨?_, htop⟩
      rw [← hkey]
      rw [lookup_eq_of_mem hnd hp]
      exact hval
    · exfalso
      rcases List.mem_map.mp h with ⟨a, -, habs⟩
      exact Order.noConfusion habs
  · rintro ⟨hval, htop⟩
    refine List.mem_append.mpr (Or.inl ?_)
    exact (mem_liquidationOrders _ _ _).mpr
      ⟨(sym, lookup port sym), lookup_mem_of_ne_zero hval, rfl, hval, htop⟩

/-- Witness for C6 at a concrete input: in the counterexample portfolio, IVV is
held but out of the top nine, and an active Rebalance liquidates it. -/
theorem rebalance_liquidation_policy_witness :
    Order.liquidate "IVV" ∈ (Rebalance false cexData cexPort).1 :=
  (rebalance_liquidation_policy cexData cexPort "IVV" (by decide)).mpr
    (by decide)

/-- C4, amended: after an active (non-warm-up) Rebalance the held symbols are
exactly the top nine by momentum, but not all at 1/9: a top symbol already held
keeps its prior fraction, and each newly added top symbol is set to fraction
1/n, where n is the number of newly added symbols. -/
theorem rebalance_holdings_after (data : MomData) (port : Portfolio) :
    (∀ sym, lookup (Rebalance false data port).2 sym ≠ 0 ↔ sym ∈ top9 data) ∧
    (∀ sym ∈ top9 data, lookup port sym ≠ 0 →
      lookup (Rebalance false data port).2 sym = lookup port sym) ∧
    (∀ sym ∈ top9 data, lookup port sym = 0 →
      lookup (Rebalance false data port).2 sym =
        1 / ((((top9 data).filter fun s =>
          decide (lookup port s = 0)).length : ℕ) : ℚ)) := by
  have hkey : ∀ sym, lookup (Rebalance false data port).2 sym =
      if sym ∈ addedSymbols (top9 data) (liquidationStep (top9 data) port) then
        mkRat 1
          (addedSymbols (top9 data) (liquidationStep (top9 data) port)).length
      else lookup (liquidationStep (top9 data) port) sym := by
    intro sym
    rw [rebalance_active]
    exact lookup_foldl_setWeight _ _ _ _
  have hmem : ∀ sym,
      sym ∈ addedSymbols (top9 data) (liquidationStep (top9 data) port) ↔
        sym ∈ top9 data ∧ lookup port sym = 0 := by
    intro sym
    rw [addedSymbols_eq_filter, List.mem_filter]
    simp
  have htopkeep : ∀ sym ∈ top9 data,
      lookup (liquidationStep (top9 data) port) sym = lookup port sym := by
    intro sym hs
    rw [lookup_liquidationStep, if_neg]
    rintro ⟨-, habs⟩
    exact habs hs
  have hnottop : ∀ sym, sym ∉ top9 data →
      lookup (liquidationStep (top9 data) port) sym = 0 := by
    intro sym hs
    rw [lookup_liquidationStep]
    by_cases hz : lookup port sym ≠ 0
    · rw [if_pos ⟨hz, hs⟩]
    · rw [if_neg (fun hc => hz hc.1)]
      exact not_not.mp hz
  have hlen : addedSymbols (top9 data) (liquidationStep (top9 data) port) =
      (top9 data).filter fun s => decide (lookup port s = 0) :=
    addedSymbols_eq_filter data port
  refine ⟨?_, ?_, ?_⟩
  · intro sym
    constructor
    · intro hnz
      by_contra habs
      rw [hkey sym, if_neg (fun hm => habs ((hmem sym).mp hm).1),
        hnottop sym habs] at hnz
      exact hnz rfl
    · intro hs
      by_cases hz : lookup port sym = 0
      · have hadd := (hmem sym).mpr ⟨hs, hz⟩
        rw [hkey sym, if_pos hadd]
        have hne : (addedSymbols (top9 data)
            (liquidationStep (top9 data) port)).length ≠ 0 :=
          fun h0 => (List.ne_nil_of_mem hadd) (List.eq_nil_of_length_eq_zero h0)
        rw [mkRat_one_eq_one_div]
        exact one_div_ne_zero (Nat.cast_ne_zero.mpr hne)
      · rw [hkey sym, if_neg (fun hm => hz ((hmem sym).mp hm).2),
          htopkeep sym hs]
        exact hz
  · intro sym hs hz
    rw [hkey sym, if_neg (fun hm => hz ((hmem sym).mp hm).2), htopkeep sym hs]
  · intro sym hs hz
    rw [hkey sym, if_pos ((hmem sym).mpr ⟨hs, hz⟩), mkRat_one_eq_one_div, hlen]

/-- C4 counterexample: with the top nine being the first nine symbols of the
concrete table and the prior portfolio holding eight of them plus IVV (which
dropped out), the one newly added top symbol HD is set to fraction 1/1 = 1, not
1/9, so the post-rebalance portfolio is not equally weighted at 1/9. -/
theorem rebalance_not_equal_weighted :
    "HD" ∈ top9 cexData ∧
    lookup (Rebalance false cexData cexPort).2 "HD" = 1 ∧
    (1 : ℚ) ≠ 1/9 :=
  ⟨by decide, by decide, by norm_num⟩

end Momentum
